import Mathlib

/-!
Shallow embedding of `create.py` ("Tweet Synthesizer").

The program is a single linear pipeline:
  * `load_comments` reads `comments.ndjson` line by line, parses each line as
    JSON (skipping lines that fail to parse), and extracts a content value
    (the `"comment"` key of an object, else the Python `str()` of the value);
  * `generate_tweets(n)` raises a `ValueError` if no comments were loaded,
    otherwise writes `n` JSON-serialized tweet records to `tweets.ndjson`,
    one per line, and prints a confirmation message.

Modelling choices:
  * A parsed JSON value is `JVal` (JSON numbers are modelled as integers;
    the program never constructs floats itself).
  * `json.loads` on one input line is modelled by its result,
    an `Option JVal` (`none` = `json.JSONDecodeError`).
  * The randomness consumed by one iteration of the generation loop
    (faker name/username, `random.choice`, the two `datetime.now()` readings,
    `random.randint` draws, nanoid draws) is a `Draw` record; `random.randint(a, b)`
    is modelled as `a + draw % (b - a + 1)`, `random.choice(xs)` as
    `xs[draw % len(xs)]`, and the `nanoid` library call as picking `size`
    characters from its default URL-safe 64-character alphabet.
  * Clock readings are integer microseconds since the epoch (the resolution
    of Python `datetime`); `int(x)` on an exact ratio `a / b` is the
    truncating division `tdivZ`.
  * The output file is modelled by the list of strings passed to `f.write`,
    and the whole run by an `Except`: `Except.error` means the `ValueError`
    was raised (before the output file was opened), `Except.ok (lines, msg)`
    means the file was created holding exactly `lines` and `msg` was printed.
-/

namespace Corkboard

/-- A parsed JSON value, as produced by Python `json.loads`
(numbers restricted to integers). Object fields are kept in insertion
order; duplicate keys are resolved by `dictLookup` (last one wins),
matching Python dict construction. -/
inductive JVal where
  | jnull
  | jbool (b : Bool)
  | jint (n : Int)
  | jstr (s : String)
  | jarr (elems : List JVal)
  | jobj (fields : List (String × JVal))

/-- Python dict lookup on an insertion-ordered field list: the last
binding of the key wins, as in `dict(pairs)`. `none` models the key
being absent (`"comment" in data` false). -/
def dictLookup (fields : List (String × JVal)) (k : String) : Option JVal :=
  fields.foldl (fun acc p => if p.1 = k then some p.2 else acc) none

/-- One decimal digit character, as produced by Python `"%x"` / `str` for
a digit value (the `% 16` keeps `Char.ofNat` in the valid range). -/
def hexDigit (n : Nat) : Char :=
  if n % 16 < 10 then Char.ofNat (48 + n % 16) else Char.ofNat (87 + n % 16)

/-- Two lowercase hex digits of `n < 256`, as in Python `"%02x" % n`. -/
def hex2 (n : Nat) : String :=
  String.mk [hexDigit (n / 16), hexDigit n]

/-- Decimal digits of a natural number, most significant first
(Python `str` of a non-negative int). -/
def natDigits (n : Nat) : List Char :=
  if _h : n < 10 then [hexDigit n] else natDigits (n / 10) ++ [hexDigit (n % 10)]
decreasing_by exact Nat.div_lt_self (by omega) (by omega)

/-- Python `str()` of an int: decimal digits, `-` sign for negatives. -/
def intDecimal (n : Int) : String :=
  if n < 0 then "-" ++ String.mk (natDigits (-n).toNat) else String.mk (natDigits n.toNat)

/-- Concatenation of `f` over a character list (helper for string escaping). -/
def concatMapStr (f : Char → String) : List Char → String
  | [] => ""
  | c :: cs => f c ++ concatMapStr f cs

/-- Python `repr()` of one character inside a string literal quoted by `q`:
backslash, the quote character, and control characters are escaped, all
other characters appear literally. -/
def pyEscChar (q : Char) (c : Char) : String :=
  if c.toNat = 92 then "\\\\"
  else if c = q then "\\" ++ String.singleton q
  else if c.toNat = 10 then "\\n"
  else if c.toNat = 13 then "\\r"
  else if c.toNat = 9 then "\\t"
  else if c.toNat < 32 || c.toNat = 127 then "\\x" ++ hex2 c.toNat
  else String.singleton c

/-- The quote character Python `repr()` picks for a string: a single quote,
unless the string contains one and no double quote. -/
def pyQuote (s : String) : Char :=
  if s.data.contains '\x27' && !(s.data.contains '"') then '"' else '\x27'

/-- Python `repr()` of a string. -/
def pyReprStr (s : String) : String :=
  String.singleton (pyQuote s) ++ concatMapStr (pyEscChar (pyQuote s)) s.data
    ++ String.singleton (pyQuote s)

mutual

/-- Python `repr()` of a parsed JSON value. -/
def pyRepr : JVal → String
  | .jnull => "None"
  | .jbool true => "True"
  | .jbool false => "False"
  | .jint n => intDecimal n
  | .jstr s => pyReprStr s
  | .jarr xs => "[" ++ pyReprList xs ++ "]"
  | .jobj fs => "\x7b" ++ pyReprFields fs ++ "\x7d"

/-- Comma-separated `repr`s of list elements. -/
def pyReprList : List JVal → String
  | [] => ""
  | [x] => pyRepr x
  | x :: y :: xs => pyRepr x ++ ", " ++ pyReprList (y :: xs)

/-- Comma-separated `key: value` `repr`s of dict items. -/
def pyReprFields : List (String × JVal) → String
  | [] => ""
  | [(k, v)] => pyReprStr k ++ ": " ++ pyRepr v
  | (k, v) :: p :: fs => pyReprStr k ++ ": " ++ pyRepr v ++ ", " ++ pyReprFields (p :: fs)

end

/-- Python `str()` of a parsed JSON value: a string is itself, anything
else is its `repr()`. This is the `str(data)` fallback of `load_comments`. -/
def pyStr : JVal → String
  | .jstr s => s
  | v => pyRepr v

/-- The content value one successfully parsed line contributes
(`create.py` lines 24-27): the `"comment"` field of an object that has
one, otherwise `str(data)` of the whole value. -/
def extractContent (d : JVal) : JVal :=
  match d with
  | .jobj fields =>
    match dictLookup fields "comment" with
    | some v => v
    | none => .jstr (pyStr (.jobj fields))
  | v => .jstr (pyStr v)

/-- `load_comments` (`create.py` lines 17-30), applied to the parse results
of the input file lines: a line that failed to parse (`none`) is skipped,
every parsed line appends its extracted content, in file order. -/
def load_comments : List (Option JVal) → List JVal
  | [] => []
  | none :: rest => load_comments rest
  | some d :: rest => extractContent d :: load_comments rest

/-- `REACTION_EMOJIS` (`create.py` line 14). -/
def REACTION_EMOJIS : List String :=
  ["👍", "❤️", "😂", "😮", "😢", "😡", "🔥", "🚀", "👏", "🎉"]

/-- Microseconds per day; `timedelta(days=30)` is `30 * MICROS_PER_DAY`
microseconds at Python `datetime` resolution. -/
def MICROS_PER_DAY : Int := 86400 * 1000000

/-- Python `int()` applied to the exact ratio `a / b` (with `b > 0`):
division truncated toward zero. Models `int(td.total_seconds())` (with
`a` in microseconds, `b = 10^6`) and `int(dt.timestamp() * 1000)` (with
`a` in microseconds, `b = 10^3`). -/
def tdivZ (a b : Int) : Int :=
  if 0 ≤ a then a / b else -((-a) / b)

/-- `random.randint(a, b)`: a uniformly chosen integer of `[a, b]`,
modelled by reducing an unbounded random draw modulo the size of the
range. -/
def randint (a b : Int) (draw : Nat) : Int :=
  a + ((draw % (b - a + 1).toNat : Nat) : Int)

/-- `random.choice(xs)`: a uniformly chosen element of `xs`, modelled by
reducing an unbounded random draw modulo the length. (Python raises on an
empty sequence; the program only calls it after the non-empty check.) -/
def pyChoice (xs : List JVal) (draw : Nat) : JVal :=
  xs.getD (draw % xs.length) (.jstr "")

/-- The default alphabet of the `nanoid` library: 64 URL-safe characters. -/
def NANOID_ALPHABET : List Char :=
  "_-0123456789abcdefghijklmnopqrstuvwxyzABCDEFGHIJKLMNOPQRSTUVWXYZ".data

/-- The `nanoid(size=...)` library call: `size` characters drawn from the
default URL-safe alphabet, one random draw per character. -/
def nanoid (size : Nat) (draws : Nat → Nat) : String :=
  String.mk ((List.range size).map
    (fun i => NANOID_ALPHABET.getD (draws i % NANOID_ALPHABET.length) '_'))

/-- One generated tweet record (`create.py` lines 59-66). -/
structure Tweet where
  id : String
  displayName : String
  handle : String
  content : JVal
  timestamp : Int
  reactions : List (String × Int)

/-- The external inputs consumed by one iteration of the generation loop:
the faker outputs, the two `datetime.now()` readings (microseconds since
epoch, in call order), and the unbounded draws feeding `random.choice`,
`random.randint` and `nanoid`. -/
structure Draw where
  fullName : String
  username : String
  choiceDraw : Nat
  now1 : Int
  now2 : Int
  offsetDraw : Nat
  reactionDraws : Nat → Nat
  idDraws : Nat → Nat

/-- The body of the generation loop (`create.py` lines 40-66): build one
tweet record from the loaded comments and one iteration's draws.
`now1` is the `datetime.now()` of line 49 (lower bound 30 days earlier),
`now2` the one of line 51 (upper bound of the random offset). -/
def makeTweet (comments : List JVal) (d : Draw) : Tweet :=
  let handle := "@" ++ d.username
  let content := pyChoice comments d.choiceDraw
  let thirty_days_ago := d.now1 - 30 * MICROS_PER_DAY
  let offsetSec := randint 0 (tdivZ (d.now2 - thirty_days_ago) 1000000) d.offsetDraw
  let random_time := thirty_days_ago + offsetSec * 1000000
  let timestamp := tdivZ random_time 1000
  let reactions := REACTION_EMOJIS.enum.map
    (fun p => (p.2, randint 0 20 (d.reactionDraws p.1)))
  { id := nanoid 10 d.idDraws
    displayName := d.fullName
    handle := handle
    content := content
    timestamp := timestamp
    reactions := reactions }

/-- One character of a JSON string serialized by
`json.dumps(..., ensure_ascii=False)`: only the double quote, the
backslash and control characters are escaped; everything else — all
non-ASCII characters included — appears literally. -/
def jsonEscapeChar (c : Char) : String :=
  if c.toNat = 34 then "\\\""
  else if c.toNat = 92 then "\\\\"
  else if c.toNat = 10 then "\\n"
  else if c.toNat = 13 then "\\r"
  else if c.toNat = 9 then "\\t"
  else if c.toNat = 8 then "\\b"
  else if c.toNat = 12 then "\\f"
  else if c.toNat < 32 then "\\u00" ++ hex2 c.toNat
  else String.singleton c

/-- A JSON string literal as serialized by
`json.dumps(..., ensure_ascii=False)`. -/
def dumpJString (s : String) : String :=
  "\"" ++ concatMapStr jsonEscapeChar s.data ++ "\""

mutual

/-- `json.dumps(v, ensure_ascii=False)` with the default separators
`", "` and `": "`. -/
def dumpVal : JVal → String
  | .jnull => "null"
  | .jbool true => "true"
  | .jbool false => "false"
  | .jint n => intDecimal n
  | .jstr s => dumpJString s
  | .jarr xs => "[" ++ dumpArr xs ++ "]"
  | .jobj fs => "\x7b" ++ dumpObj fs ++ "\x7d"

/-- Comma-separated serializations of array elements. -/
def dumpArr : List JVal → String
  | [] => ""
  | [x] => dumpVal x
  | x :: y :: xs => dumpVal x ++ ", " ++ dumpArr (y :: xs)

/-- Comma-separated `"key": value` serializations of object fields. -/
def dumpObj : List (String × JVal) → String
  | [] => ""
  | [(k, v)] => dumpJString k ++ ": " ++ dumpVal v
  | (k, v) :: p :: fs => dumpJString k ++ ": " ++ dumpVal v ++ ", " ++ dumpObj (p :: fs)

end

/-- The dict built at `create.py` lines 59-66, in insertion order, as the
JSON value passed to `json.dumps`. -/
def Tweet.toJVal (t : Tweet) : JVal :=
  .jobj [("id", .jstr t.id),
         ("displayName", .jstr t.displayName),
         ("handle", .jstr t.handle),
         ("content", t.content),
         ("timestamp", .jint t.timestamp),
         ("reactions", .jobj (t.reactions.map (fun p => (p.1, JVal.jint p.2))))]

/-- The argument of the `f.write` call at `create.py` line 69: the
serialized record followed by a single newline. -/
def tweetLine (comments : List JVal) (d : Draw) : String :=
  dumpVal (Tweet.toJVal (makeTweet comments d)) ++ "\n"

/-- The external world `generate_tweets` reads: the parse results of the
lines of `comments.ndjson`, and the randomness of each loop iteration. -/
structure Env where
  inputLines : List (Option JVal)
  draws : Nat → Draw

/-- The `ValueError` message of `create.py` line 36. -/
def noCommentsMsg : String :=
  "No valid comments found in \x27comments.ndjson\x27"

/-- The confirmation printed at `create.py` line 71. -/
def successMsg (num_tweets : Int) : String :=
  "✅ Generated " ++ intDecimal num_tweets
    ++ " tweets with real comments into \x27tweets.ndjson\x27"

/-- `generate_tweets` (`create.py` lines 33-71). `Except.error e` models
the `ValueError` raised before the output file is opened; `Except.ok
(lines, msg)` models a completed run that created `tweets.ndjson` with
exactly the write calls `lines` (in order) and printed `msg`. `range(n)`
on a Python int is empty for `n ≤ 0`, hence `n.toNat` iterations. -/
def generate_tweets (env : Env) (num_tweets : Int) : Except String (List String × String) :=
  let comments := load_comments env.inputLines
  if comments.isEmpty then
    .error noCommentsMsg
  else
    .ok ((List.range num_tweets.toNat).map (fun i => tweetLine comments (env.draws i)),
         successMsg num_tweets)

/-- Whether a parsed JSON value is an object with a `"comment"` key
(the test of `create.py` line 24). -/
def hasCommentKey : JVal → Bool
  | .jobj fields => (dictLookup fields "comment").isSome
  | _ => false

/- Proofs that the serializer never emits a raw newline character: the
generation loop writes one record per `f.write`, each terminated by the
only newline of the line. -/

theorem not_mem_append_list {α : Type} {c : α} {s t : List α}
    (hs : c ∉ s) (ht : c ∉ t) : c ∉ s ++ t :=
  fun h => (List.mem_append.mp h).elim hs ht

theorem not_mem_append_str {c : Char} {s t : String}
    (hs : c ∉ s.data) (ht : c ∉ t.data) : c ∉ (s ++ t).data := by
  rw [String.data_append]
  exact not_mem_append_list hs ht

theorem not_mem_singleton_ne {α : Type} {c x : α} (hx : x ≠ c) : c ∉ [x] :=
  fun h => hx (List.mem_singleton.mp h).symm

theorem hexDigit_ne_newline (n : Nat) : hexDigit n ≠ '\n' := by
  have h16 : n % 16 < 16 := Nat.mod_lt _ (by omega)
  have key : ∀ m, m < 16 →
      (if m < 10 then Char.ofNat (48 + m) else Char.ofNat (87 + m)) ≠ '\n' := by decide
  exact key (n % 16) h16

theorem newline_not_mem_hex2 (n : Nat) : '\n' ∉ (hex2 n).data := by
  have : (hex2 n).data = [hexDigit (n / 16)] ++ [hexDigit n] := rfl
  rw [this]
  exact not_mem_append_list (not_mem_singleton_ne (hexDigit_ne_newline (n / 16)))
    (not_mem_singleton_ne (hexDigit_ne_newline n))

theorem newline_not_mem_natDigits (n : Nat) : '\n' ∉ natDigits n := by
  induction n using Nat.strong_induction_on with
  | _ n ih =>
    rw [natDigits]
    split
    · exact not_mem_singleton_ne (hexDigit_ne_newline n)
    · exact not_mem_append_list (ih (n / 10) (Nat.div_lt_self (by omega) (by omega)))
        (not_mem_singleton_ne (hexDigit_ne_newline (n % 10)))

theorem newline_not_mem_intDecimal (n : Int) : '\n' ∉ (intDecimal n).data := by
  unfold intDecimal
  split
  · exact not_mem_append_str (by decide) (newline_not_mem_natDigits _)
  · exact newline_not_mem_natDigits _

theorem mem_concatMapStr {f : Char → String} {c : Char} :
    ∀ {l : List Char}, c ∈ (concatMapStr f l).data ↔ ∃ x ∈ l, c ∈ (f x).data := by
  intro l
  induction l with
  | nil => simp [concatMapStr]
  | cons a l ih =>
    rw [concatMapStr, String.data_append]
    simp only [List.mem_append, ih, List.mem_cons]
    constructor
    · rintro (h | ⟨x, hx, hc⟩)
      · exact ⟨a, Or.inl rfl, h⟩
      · exact ⟨x, Or.inr hx, hc⟩
    · rintro ⟨x, hx | hx, hc⟩
      · subst hx
        exact Or.inl hc
      · exact Or.inr ⟨x, hx, hc⟩

theorem newline_not_mem_jsonEscapeChar (c : Char) : '\n' ∉ (jsonEscapeChar c).data := by
  by_cases hc : c = '\n'
  · subst hc
    decide
  · unfold jsonEscapeChar
    repeat' split
    any_goals decide
    · exact not_mem_append_str (by decide) (newline_not_mem_hex2 _)
    · intro hmem
      have h1 : '\n' = c := by simpa using hmem
      exact hc h1.symm

theorem newline_not_mem_dumpJString (s : String) : '\n' ∉ (dumpJString s).data := by
  unfold dumpJString
  refine not_mem_append_str (not_mem_append_str (by decide) ?_) (by decide)
  intro h
  rcases mem_concatMapStr.mp h with ⟨x, _, hc⟩
  exact newline_not_mem_jsonEscapeChar x hc

mutual

/-- `dumpVal` never emits a raw newline (strings escape it as `\n`). -/
def newline_not_mem_dumpVal : (v : JVal) → '\n' ∉ (dumpVal v).data
  | .jnull => by simp only [dumpVal]; decide
  | .jbool true => by simp only [dumpVal]; decide
  | .jbool false => by simp only [dumpVal]; decide
  | .jint n => by simp only [dumpVal]; exact newline_not_mem_intDecimal n
  | .jstr s => by simp only [dumpVal]; exact newline_not_mem_dumpJString s
  | .jarr xs => by
      simp only [dumpVal]
      exact not_mem_append_str (not_mem_append_str (by decide)
        (newline_not_mem_dumpArr xs)) (by decide)
  | .jobj fs => by
      simp only [dumpVal]
      exact not_mem_append_str (not_mem_append_str (by decide)
        (newline_not_mem_dumpObj fs)) (by decide)

/-- `dumpArr` never emits a raw newline. -/
def newline_not_mem_dumpArr : (xs : List JVal) → '\n' ∉ (dumpArr xs).data
  | [] => by simp only [dumpArr]; decide
  | [x] => by simp only [dumpArr]; exact newline_not_mem_dumpVal x
  | x :: y :: xs => by
      simp only [dumpArr]
      exact not_mem_append_str (not_mem_append_str (newline_not_mem_dumpVal x)
        (by decide)) (newline_not_mem_dumpArr (y :: xs))

/-- `dumpObj` never emits a raw newline. -/
def newline_not_mem_dumpObj : (fs : List (String × JVal)) → '\n' ∉ (dumpObj fs).data
  | [] => by simp only [dumpObj]; decide
  | [(k, v)] => by
      simp only [dumpObj]
      exact not_mem_append_str (not_mem_append_str (newline_not_mem_dumpJString k)
        (by decide)) (newline_not_mem_dumpVal v)
  | (k, v) :: p :: fs => by
      simp only [dumpObj]
      exact not_mem_append_str (not_mem_append_str (not_mem_append_str
        (not_mem_append_str (newline_not_mem_dumpJString k) (by decide))
        (newline_not_mem_dumpVal v)) (by decide))
        (newline_not_mem_dumpObj (p :: fs))

end

/- Range facts about the modelled random primitives, and the arithmetic
of the timestamp computation. -/

theorem randint_bounds (a b : Int) (hab : a ≤ b) (draw : Nat) :
    a ≤ randint a b draw ∧ randint a b draw ≤ b := by
  unfold randint
  have hpos : 0 < (b - a + 1).toNat := by omega
  have hlt : draw % (b - a + 1).toNat < (b - a + 1).toNat := Nat.mod_lt _ hpos
  omega

theorem getD_mem_of_mem {α : Type} (l : List α) (n : Nat) (d : α) (hd : d ∈ l) :
    l.getD n d ∈ l := by
  have e : l.getD n d = (l.get? n).getD d := by simp [List.getD]
  rw [e]
  cases h : l.get? n with
  | none => simpa using hd
  | some x => simpa using List.get?_mem h

theorem nonascii_mem_dumpJString (s : String) (c : Char)
    (hc : c ∈ s.data) (h128 : 128 ≤ c.toNat) : c ∈ (dumpJString s).data := by
  have hesc : jsonEscapeChar c = String.singleton c := by
    unfold jsonEscapeChar
    repeat rw [if_neg (by omega)]
  unfold dumpJString
  rw [String.data_append, String.data_append]
  refine List.mem_append.mpr (Or.inl (List.mem_append.mpr (Or.inr ?_)))
  exact mem_concatMapStr.mpr ⟨c, hc, by rw [hesc]; simp⟩

theorem timestamp_window_core (t : Int) (draw : Nat) (ht : 30 * MICROS_PER_DAY ≤ t) :
    tdivZ t 1000 - 30 * 86400 * 1000
        ≤ tdivZ ((t - 30 * MICROS_PER_DAY)
            + randint 0 (tdivZ (t - (t - 30 * MICROS_PER_DAY)) 1000000) draw * 1000000) 1000
      ∧ tdivZ ((t - 30 * MICROS_PER_DAY)
            + randint 0 (tdivZ (t - (t - 30 * MICROS_PER_DAY)) 1000000) draw * 1000000) 1000
        ≤ tdivZ t 1000 := by
  have hD : (30 : Int) * MICROS_PER_DAY = 2592000000000 := by
    unfold MICROS_PER_DAY
    norm_num
  rw [hD] at ht ⊢
  have e1 : t - (t - 2592000000000) = 2592000000000 := by ring
  rw [e1]
  have e2 : tdivZ 2592000000000 1000000 = 2592000 := by
    unfold tdivZ
    rw [if_pos (by norm_num)]
    decide
  rw [e2]
  have e3 : randint 0 2592000 draw = ((draw % 2592001 : Nat) : Int) := by
    unfold randint
    norm_num
  rw [e3]
  have hr : draw % 2592001 < 2592001 := Nat.mod_lt _ (by omega)
  have h0 : (0 : Int) ≤ t - 2592000000000 + ((draw % 2592001 : Nat) : Int) * 1000000 := by
    omega
  rw [show tdivZ (t - 2592000000000 + ((draw % 2592001 : Nat) : Int) * 1000000) 1000
      = (t - 2592000000000 + ((draw % 2592001 : Nat) : Int) * 1000000) / 1000
    from if_pos h0]
  rw [show tdivZ t 1000 = t / 1000 from if_pos (by omega)]
  omega

/- Concrete inputs used by the witness theorems. -/

/-- A concrete per-iteration draw: both clock readings at exactly 30 days
after the epoch, all random draws zero. -/
def draw0 : Draw :=
  { fullName := "Ann Blake", username := "ann", choiceDraw := 0,
    now1 := 30 * MICROS_PER_DAY, now2 := 30 * MICROS_PER_DAY, offsetDraw := 0,
    reactionDraws := fun _ => 0, idDraws := fun _ => 0 }

/-- A concrete environment whose input file holds one valid line
`\x7b"comment": "hello"\x7d`. -/
def env0 : Env :=
  { inputLines := [some (.jobj [("comment", .jstr "hello")])], draws := fun _ => draw0 }

/-- A concrete environment whose single input line fails to parse. -/
def env1 : Env :=
  { inputLines := [none], draws := fun _ => draw0 }

/-- C1: if the loaded comment sequence is empty, `generate_tweets` fails with
the descriptive "No valid comments found" `ValueError`. In the model the
error result carries no output file and no records: the exception is raised
before the output file is opened and before any record generation, so no
empty or partial output file is produced on this path. -/
theorem c1_empty_input_error (env : Env) (n : Int)
    (h : load_comments env.inputLines = []) :
    generate_tweets env n = Except.error noCommentsMsg := by
  simp [generate_tweets, h]

/-- C1 witness: a run whose only input line is malformed raises the error. -/
theorem c1_empty_input_error_witness :
    generate_tweets env1 5 = Except.error noCommentsMsg :=
  c1_empty_input_error env1 5 rfl

/-- C2: with a non-empty loaded comment sequence and target count `n ≥ 0`,
`generate_tweets` completes and writes exactly `n` lines, the `i`-th being
the JSON serialization of the `i`-th generated record followed by a single
newline — the serialized record itself contains no newline character — and
the serializer keeps non-ASCII characters of strings literal. -/
theorem c2_writes_n_serialized_lines (env : Env) (n : Int)
    (hne : (load_comments env.inputLines).isEmpty = false) (hn : 0 ≤ n) :
    ∃ lines msg,
      generate_tweets env n = Except.ok (lines, msg)
      ∧ (lines.length : Int) = n
      ∧ (∀ i : Nat, i < n.toNat →
          lines[i]? = some (dumpVal (Tweet.toJVal
              (makeTweet (load_comments env.inputLines) (env.draws i))) ++ "\n")
          ∧ '\n' ∉ (dumpVal (Tweet.toJVal
              (makeTweet (load_comments env.inputLines) (env.draws i)))).data)
      ∧ (∀ s : String, ∀ c ∈ s.data, 128 ≤ c.toNat → c ∈ (dumpJString s).data) := by
  refine ⟨(List.range n.toNat).map
      (fun i => tweetLine (load_comments env.inputLines) (env.draws i)),
    successMsg n, ?_, ?_, ?_, ?_⟩
  · simp [generate_tweets, hne]
  · simp [Int.toNat_of_nonneg hn]
  · intro i hi
    refine ⟨?_, newline_not_mem_dumpVal _⟩
    rw [List.getElem?_map, List.getElem?_range hi]
    rfl
  · exact fun s c hc h128 => nonascii_mem_dumpJString s c hc h128

/-- C2 witness: one valid input line, one requested record. -/
theorem c2_writes_n_serialized_lines_witness :
    ∃ lines msg,
      generate_tweets env0 1 = Except.ok (lines, msg)
      ∧ (lines.length : Int) = 1
      ∧ (∀ i : Nat, i < (1 : Int).toNat →
          lines[i]? = some (dumpVal (Tweet.toJVal
              (makeTweet (load_comments env0.inputLines) (env0.draws i))) ++ "\n")
          ∧ '\n' ∉ (dumpVal (Tweet.toJVal
              (makeTweet (load_comments env0.inputLines) (env0.draws i)))).data)
      ∧ (∀ s : String, ∀ c ∈ s.data, 128 ≤ c.toNat → c ∈ (dumpJString s).data) :=
  c2_writes_n_serialized_lines env0 1 rfl (by decide)

/-- C3: every generated record's reactions mapping has exactly the ten fixed
emoji keys, in the fixed order, with no duplicates, and every value is an
integer in `[0, 20]`. -/
theorem c3_reactions_fixed_keys_and_range (comments : List JVal) (d : Draw) :
    (makeTweet comments d).reactions.map Prod.fst = REACTION_EMOJIS
    ∧ REACTION_EMOJIS.Nodup
    ∧ ∀ p ∈ (makeTweet comments d).reactions, 0 ≤ p.2 ∧ p.2 ≤ 20 := by
  refine ⟨rfl, by decide, ?_⟩
  intro p hp
  have hr : (makeTweet comments d).reactions
      = [("👍", randint 0 20 (d.reactionDraws 0)),
         ("❤️", randint 0 20 (d.reactionDraws 1)),
         ("😂", randint 0 20 (d.reactionDraws 2)),
         ("😮", randint 0 20 (d.reactionDraws 3)),
         ("😢", randint 0 20 (d.reactionDraws 4)),
         ("😡", randint 0 20 (d.reactionDraws 5)),
         ("🔥", randint 0 20 (d.reactionDraws 6)),
         ("🚀", randint 0 20 (d.reactionDraws 7)),
         ("👏", randint 0 20 (d.reactionDraws 8)),
         ("🎉", randint 0 20 (d.reactionDraws 9))] := rfl
  rw [hr] at hp
  simp only [List.mem_cons, List.not_mem_nil, or_false] at hp
  rcases hp with rfl | rfl | rfl | rfl | rfl | rfl | rfl | rfl | rfl | rfl
  all_goals exact randint_bounds 0 20 (by norm_num) _

/-- C4: under the idealization that the two `datetime.now()` readings of one
record coincide (common value `t` microseconds, at least 30 days after the
epoch), the record's timestamp is an integer number of milliseconds within
the trailing window `[T0 - 30*86400*1000, T0]` where `T0` is the clock
reading in milliseconds; and it equals the lower bound (30 days before `t`)
plus a whole number of seconds bounded by the truncated bound difference,
truncated to integer milliseconds. -/
theorem c4_timestamp_window (comments : List JVal) (d : Draw)
    (hclock : d.now1 = d.now2) (hepoch : 30 * MICROS_PER_DAY ≤ d.now1) :
    (tdivZ d.now2 1000 - 30 * 86400 * 1000 ≤ (makeTweet comments d).timestamp
      ∧ (makeTweet comments d).timestamp ≤ tdivZ d.now2 1000)
    ∧ ∃ s : Int, 0 ≤ s
        ∧ s ≤ tdivZ (d.now2 - (d.now1 - 30 * MICROS_PER_DAY)) 1000000
        ∧ (makeTweet comments d).timestamp
            = tdivZ ((d.now1 - 30 * MICROS_PER_DAY) + s * 1000000) 1000 := by
  have hts : (makeTweet comments d).timestamp
      = tdivZ ((d.now1 - 30 * MICROS_PER_DAY)
          + randint 0 (tdivZ (d.now2 - (d.now1 - 30 * MICROS_PER_DAY)) 1000000)
              d.offsetDraw * 1000000) 1000 := rfl
  have hupper : tdivZ (d.now2 - (d.now1 - 30 * MICROS_PER_DAY)) 1000000 = 2592000 := by
    rw [← hclock]
    have e : d.now1 - (d.now1 - 30 * MICROS_PER_DAY) = 2592000000000 := by
      unfold MICROS_PER_DAY
      ring
    rw [e]
    unfold tdivZ
    rw [if_pos (by norm_num)]
    decide
  constructor
  · rw [hts, ← hclock]
    exact timestamp_window_core d.now1 d.offsetDraw hepoch
  · refine ⟨randint 0 (tdivZ (d.now2 - (d.now1 - 30 * MICROS_PER_DAY)) 1000000)
        d.offsetDraw, ?_, ?_, hts⟩
    · exact (randint_bounds _ _ (by rw [hupper]; norm_num) _).1
    · exact (randint_bounds _ _ (by rw [hupper]; norm_num) _).2

/-- C4 witness: both clock readings exactly 30 days after the epoch. -/
theorem c4_timestamp_window_witness :
    (tdivZ draw0.now2 1000 - 30 * 86400 * 1000 ≤ (makeTweet [] draw0).timestamp
      ∧ (makeTweet [] draw0).timestamp ≤ tdivZ draw0.now2 1000)
    ∧ ∃ s : Int, 0 ≤ s
        ∧ s ≤ tdivZ (draw0.now2 - (draw0.now1 - 30 * MICROS_PER_DAY)) 1000000
        ∧ (makeTweet [] draw0).timestamp
            = tdivZ ((draw0.now1 - 30 * MICROS_PER_DAY) + s * 1000000) 1000 :=
  c4_timestamp_window [] draw0 rfl (by decide)

/-- C5: every generated record's content is an element of the loaded comment
sequence (the random index is reduced modulo the sequence length, so no
record references a comment outside it). -/
theorem c5_content_is_loaded_comment (comments : List JVal) (d : Draw)
    (h : comments.isEmpty = false) :
    (makeTweet comments d).content ∈ comments := by
  have e : (makeTweet comments d).content = pyChoice comments d.choiceDraw := rfl
  rw [e]
  unfold pyChoice
  cases comments with
  | nil => simp at h
  | cons a l =>
    have hlt : d.choiceDraw % (a :: l).length < (a :: l).length :=
      Nat.mod_lt _ (by simp)
    rw [List.getD_eq_getElem?_getD, List.getElem?_eq_getElem hlt]
    simp [List.getElem_mem]

/-- C5 witness: a one-comment sequence. -/
theorem c5_content_is_loaded_comment_witness :
    (makeTweet [JVal.jstr "hello"] draw0).content ∈ [JVal.jstr "hello"] :=
  c5_content_is_loaded_comment [JVal.jstr "hello"] draw0 rfl

/-- C6: per input line, the loader skips a line whose JSON parse fails;
appends exactly one content value for a parsed line; for an object with a
`"comment"` key that key's value is the appended content; any other parsed
value (object without the key included) contributes the Python string
representation of the whole value. -/
theorem c6_loader_line_behavior (line : Option JVal) (rest : List (Option JVal)) :
    (line = none → load_comments (line :: rest) = load_comments rest)
    ∧ (∀ d : JVal, line = some d →
        load_comments (line :: rest) = extractContent d :: load_comments rest)
    ∧ (∀ fields v, dictLookup fields "comment" = some v →
        extractContent (.jobj fields) = v)
    ∧ (∀ d : JVal, hasCommentKey d = false → extractContent d = .jstr (pyStr d)) := by
  refine ⟨?_, ?_, ?_, ?_⟩
  · rintro rfl
    rfl
  · rintro d rfl
    rfl
  · intro fields v h
    simp [extractContent, h]
  · intro d h
    cases d with
    | jobj fields =>
      have h2 : (dictLookup fields "comment").isSome = false := h
      cases hlk : dictLookup fields "comment" with
      | none => simp [extractContent, hlk]
      | some v =>
        rw [hlk] at h2
        simp at h2
    | jnull => rfl
    | jbool b => rfl
    | jint n => rfl
    | jstr s => rfl
    | jarr xs => rfl

/-- C6 witness: a malformed line is skipped; a `\x7b"comment": ...\x7d` line
contributes that key's value; a keyless object falls back to `str(data)`. -/
theorem c6_loader_line_behavior_witness :
    load_comments [(none : Option JVal)] = load_comments []
    ∧ load_comments [some (JVal.jobj [("comment", JVal.jstr "hello")])]
        = extractContent (JVal.jobj [("comment", JVal.jstr "hello")]) :: load_comments []
    ∧ extractContent (JVal.jobj [("comment", JVal.jstr "hello")]) = JVal.jstr "hello"
    ∧ extractContent (JVal.jint 7) = JVal.jstr (pyStr (JVal.jint 7)) := by
  refine ⟨?_, ?_, ?_, ?_⟩
  · exact (c6_loader_line_behavior none []).1 rfl
  · exact (c6_loader_line_behavior (some (JVal.jobj [("comment", JVal.jstr "hello")]))
      []).2.1 (JVal.jobj [("comment", JVal.jstr "hello")]) rfl
  · exact (c6_loader_line_behavior none []).2.2.1 [("comment", JVal.jstr "hello")]
      (JVal.jstr "hello") rfl
  · exact (c6_loader_line_behavior none []).2.2.2 (JVal.jint 7) rfl

/-- C7: every generated record's handle is `@` prepended to the synthesized
username, so it begins with the character `@`. -/
theorem c7_handle_at_sign (comments : List JVal) (d : Draw) :
    (makeTweet comments d).handle = "@" ++ d.username
    ∧ (makeTweet comments d).handle.data.head? = some '@' := by
  refine ⟨rfl, ?_⟩
  have e : (makeTweet comments d).handle = "@" ++ d.username := rfl
  rw [e, String.data_append]
  rfl

/-- C8: every generated record's id has length exactly 10 and all its
characters come from the URL-safe nanoid alphabet. -/
theorem c8_id_ten_urlsafe (comments : List JVal) (d : Draw) :
    (makeTweet comments d).id.length = 10
    ∧ ∀ c ∈ (makeTweet comments d).id.data, c ∈ NANOID_ALPHABET := by
  have e : (makeTweet comments d).id = nanoid 10 d.idDraws := rfl
  rw [e]
  constructor
  · rfl
  · intro c hc
    have hc2 : c ∈ (List.range 10).map
        (fun i => NANOID_ALPHABET.getD (d.idDraws i % NANOID_ALPHABET.length) '_') := hc
    rcases List.mem_map.mp hc2 with ⟨i, _, hce⟩
    rw [← hce]
    exact getD_mem_of_mem _ _ _ (by decide)

/-- C9: with a non-empty comment sequence and a non-positive target count,
the run completes: the output file is created but left with zero lines, no
error is raised, and the confirmation message naming that count is printed. -/
theorem c9_nonpositive_count_empty_file (env : Env) (n : Int)
    (hne : (load_comments env.inputLines).isEmpty = false) (hn : n ≤ 0) :
    generate_tweets env n = Except.ok ([], successMsg n) := by
  have h0 : n.toNat = 0 := Int.toNat_of_nonpos hn
  simp [generate_tweets, hne, h0]

/-- C9 witness: count zero on a one-comment input. -/
theorem c9_nonpositive_count_empty_file_witness :
    generate_tweets env0 0 = Except.ok ([], successMsg 0) :=
  c9_nonpositive_count_empty_file env0 0 rfl (by decide)

/-- C10: the loader is total — in the model it is a total function whose
only partiality, the JSON parse, is absorbed in the `Option` input — and it
returns exactly one content value per successfully parsed line, in file
order: it is the `filterMap` of content extraction over the parse results,
and its length is the number of successfully parsed lines. -/
theorem c10_loader_one_per_parsed_line (lines : List (Option JVal)) :
    load_comments lines = lines.filterMap (fun o => o.map extractContent)
    ∧ (load_comments lines).length = (lines.filter (fun o => o.isSome)).length := by
  induction lines with
  | nil => exact ⟨rfl, rfl⟩
  | cons a rest ih =>
    cases a with
    | none => simpa [load_comments, List.filterMap_cons, List.filter_cons] using ih
    | some d => simpa [load_comments, List.filterMap_cons, List.filter_cons] using ih

end Corkboard
